import Mathlib

/-!
Verification of the EBRAINS-RichEndpoint Orchestrator core specification.

The repository ships the Orchestrator / Application Companion modules
(state store, validator, step synchronizer, command dispatcher, engine)
together with a small C++ `mysqrt` library and a Cython wrapper
`_routines.pyx`.  The Python sources of the Orchestrator core are not part of
the source snapshot (only its READMEs are), so those components are
modelled from the contracts of the specification, as marked on each
definition.  `mysqrt.cpp` and `_routines.pyx` are embedded from their
sources directly.
-/

namespace RichEndpoint

/-- Modelled from the spec: `LocalState` of §3 (the Orchestrator Python
sources are not in the snapshot). One of STARTING, RUNNING, PAUSED,
ENDED, ERROR. -/
inductive LocalState where
  | STARTING | RUNNING | PAUSED | ENDED | ERROR
deriving DecidableEq, Repr

/-- Modelled from the spec: `LocalStatus` of §3: UP, DOWN, DEGRADED. -/
inductive LocalStatus where
  | UP | DOWN | DEGRADED
deriving DecidableEq, Repr

/-- Modelled from the spec: `GlobalState` of §3. -/
inductive GlobalState where
  | INITIALIZING | SYNCHRONIZING | RUNNING | PAUSED | ERROR | TERMINATED
deriving DecidableEq, Repr

/-- Modelled from the spec: `GlobalStatus` of §3: HEALTHY, DEGRADED, FAILED. -/
inductive GlobalStatus where
  | HEALTHY | DEGRADED | FAILED
deriving DecidableEq, Repr

/-- Modelled from the spec: `ComponentReport` of §3 — component id,
local state, local status, optional step-size hint, timestamp.
Step hints (floats at the interface) are embedded as rationals; the
synchronizer only compares them, never does arithmetic on them. -/
structure ComponentReport where
  cid : Nat
  state : LocalState
  status : LocalStatus
  stepHint : Option ℚ
  timestamp : Nat
deriving DecidableEq, Repr

/-- A Registry snapshot: the set of most-recent reports, one per
component, as an immutable list view (§4.1 `snapshot()`). -/
abbrev Snapshot := List ComponentReport

/-- Modelled from the spec: Validator `deriveGlobalState` (§4.2), the
six priority rules in order, first match wins. -/
def deriveGlobalState (s : Snapshot) : GlobalState :=
  if s.any (fun r => decide (r.state = LocalState.ERROR)) then
    GlobalState.ERROR
  else if s.any (fun r => decide (r.state = LocalState.STARTING)) then
    GlobalState.INITIALIZING
  else if s.all (fun r => decide (r.state = LocalState.ENDED)) then
    GlobalState.TERMINATED
  else if s.any (fun r => decide (r.state = LocalState.PAUSED)) &&
          !(s.any (fun r => decide (r.state = LocalState.RUNNING))) then
    GlobalState.PAUSED
  else if s.all (fun r => decide (r.state = LocalState.RUNNING)) then
    GlobalState.RUNNING
  else
    GlobalState.SYNCHRONIZING

/-- Modelled from the spec: Validator `deriveGlobalStatus` (§4.2):
FAILED if any DOWN; DEGRADED if any DEGRADED and none DOWN; else
HEALTHY. -/
def deriveGlobalStatus (s : Snapshot) : GlobalStatus :=
  if s.any (fun r => decide (r.status = LocalStatus.DOWN)) then
    GlobalStatus.FAILED
  else if s.any (fun r => decide (r.status = LocalStatus.DEGRADED)) then
    GlobalStatus.DEGRADED
  else
    GlobalStatus.HEALTHY

/-- Modelled from the spec: the fixed global transition table of §4.4:
INITIALIZING → SYNCHRONIZING → RUNNING → PAUSED → SYNCHRONIZING;
RUNNING/SYNCHRONIZING/PAUSED → ERROR; RUNNING/PAUSED → TERMINATED.
ERROR and TERMINATED are terminal; the operator-level reset is external
to this core and deliberately absent from the table. -/
def transitionTable : List (GlobalState × GlobalState) :=
  [(GlobalState.INITIALIZING, GlobalState.SYNCHRONIZING),
   (GlobalState.SYNCHRONIZING, GlobalState.RUNNING),
   (GlobalState.RUNNING, GlobalState.PAUSED),
   (GlobalState.PAUSED, GlobalState.SYNCHRONIZING),
   (GlobalState.RUNNING, GlobalState.ERROR),
   (GlobalState.SYNCHRONIZING, GlobalState.ERROR),
   (GlobalState.PAUSED, GlobalState.ERROR),
   (GlobalState.RUNNING, GlobalState.TERMINATED),
   (GlobalState.PAUSED, GlobalState.TERMINATED)]

/-- One system step of the global state machine of the Orchestrator: a
transition present in the fixed table. -/
def Step (g g' : GlobalState) : Prop := (g, g') ∈ transitionTable

instance (g g' : GlobalState) : Decidable (Step g g') := by
  unfold Step; infer_instance

/-- An execution trace of the global state machine: at each tick the
global state either stays put (no report changed it) or the system
takes a table transition. -/
def IsTrace (t : ℕ → GlobalState) : Prop :=
  ∀ n, t (n + 1) = t n ∨ Step (t n) (t (n + 1))

/-- Modelled from the spec: the StepSynchronizer failure signal
`NoStepAvailable` (§4.3, §7). -/
inductive StepErr where
  | NoStepAvailable
deriving DecidableEq, Repr

/-- Modelled from the spec: the step-size hints offered by exactly the
RUNNING components of a snapshot (§4.3 — components in other states do
not constrain the step). -/
def runningHints (s : Snapshot) : List ℚ :=
  (s.filter fun r => decide (r.state = LocalState.RUNNING)).filterMap
    (fun r => r.stepHint)

/-- Modelled from the spec: StepSynchronizer `nextStep` (§4.3): the
minimum hint offered across RUNNING components, or `NoStepAvailable`
when zero RUNNING components report a hint. -/
def nextStep (s : Snapshot) : Except StepErr ℚ :=
  match runningHints s with
  | [] => Except.error StepErr.NoStepAvailable
  | h :: t => Except.ok (t.foldl min h)

/-- Modelled from the spec: the step-advance dispatch of the engine (§4.5):
in RUNNING or SYNCHRONIZING it attempts `nextStep` and on success
produces a step-advance command carrying the chosen step size; on
`NoStepAvailable` (and in every other global state) it produces
nothing. -/
def engineStepAdvance (g : GlobalState) (s : Snapshot) : Option ℚ :=
  if g = GlobalState.RUNNING ∨ g = GlobalState.SYNCHRONIZING then
    match nextStep s with
    | Except.ok q => some q
    | Except.error _ => none
  else none

/-- Modelled from the spec: steering verbs INIT, START, PAUSE, RESUME,
END of §3 `SteeringCommand`. -/
inductive Verb where
  | INIT | START | PAUSE | RESUME | END
deriving DecidableEq, Repr

/-- Modelled from the spec: a steering-command target — one component
or ALL. -/
inductive Target where
  | ALL
  | one (cid : Nat)
deriving DecidableEq, Repr

/-- Modelled from the spec: `SteeringCommand` of §3 — target, verb and
the global state it was issued at. -/
structure SteeringCommand where
  target : Target
  verb : Verb
  issuedAt : GlobalState
deriving DecidableEq, Repr

/-- Modelled from the spec: the CommandDispatcher failure
`IllegalTransition` (§4.4, §7). -/
inductive DispatchErr where
  | IllegalTransition
deriving DecidableEq, Repr

/-- Modelled from the spec: the ordered command sequence for each table
transition (§4.4/§4.5): INIT into SYNCHRONIZING from INITIALIZING,
START into RUNNING, PAUSE into PAUSED, RESUME back to SYNCHRONIZING,
and the END drain sequence into ERROR or TERMINATED. -/
def commandsFor (f t : GlobalState) : List SteeringCommand :=
  match f, t with
  | GlobalState.INITIALIZING, GlobalState.SYNCHRONIZING =>
    [SteeringCommand.mk Target.ALL Verb.INIT f]
  | GlobalState.SYNCHRONIZING, GlobalState.RUNNING =>
    [SteeringCommand.mk Target.ALL Verb.START f]
  | GlobalState.RUNNING, GlobalState.PAUSED =>
    [SteeringCommand.mk Target.ALL Verb.PAUSE f]
  | GlobalState.PAUSED, GlobalState.SYNCHRONIZING =>
    [SteeringCommand.mk Target.ALL Verb.RESUME f]
  | _, GlobalState.ERROR => [SteeringCommand.mk Target.ALL Verb.END f]
  | _, GlobalState.TERMINATED => [SteeringCommand.mk Target.ALL Verb.END f]
  | _, _ => []

/-- Modelled from the spec: the shared mutable state of the engine — the
current GlobalState and the Registry (§5: the only shared mutable
resources). -/
structure EngineState where
  global : GlobalState
  registry : Snapshot
deriving DecidableEq, Repr

/-- Modelled from the spec: CommandDispatcher `transition` (§4.4).
A requested transition present in the table moves the global state and
yields the ordered command sequence; a request absent from the table
fails with IllegalTransition and mutates nothing. -/
def transition (st : EngineState) (tgt : GlobalState) :
    EngineState × Except DispatchErr (List SteeringCommand) :=
  if (st.global, tgt) ∈ transitionTable then
    ({ st with global := tgt }, Except.ok (commandsFor st.global tgt))
  else
    (st, Except.error DispatchErr.IllegalTransition)

/-- Modelled from the spec: StateStore `record` (§4.1) — overwrites the
Registry entry for the component of the report, auto-registering on first
report; no entry is ever deleted. -/
def record (reg : Snapshot) (r : ComponentReport) : Snapshot :=
  if reg.any (fun x => decide (x.cid = r.cid)) then
    reg.map (fun x => if x.cid = r.cid then r else x)
  else
    reg ++ [r]

/-- Modelled from the spec: timeout handling (§5, §7
ComponentUnresponsive) — a component that fails to acknowledge within
the timeout has its LocalStatus escalated to DOWN, and is not removed
from the Registry. -/
def markDown (reg : Snapshot) (c : Nat) : Snapshot :=
  reg.map (fun x =>
    if x.cid = c then
      ComponentReport.mk x.cid x.state LocalStatus.DOWN x.stepHint
        x.timestamp
    else x)

/-- Modelled from the spec: the operations of the core that touch the
shared state (§4.5, §5): recording a report, timeout escalation to
DOWN, taking a snapshot view, and command dispatch. -/
inductive CoreOp where
  | record (r : ComponentReport)
  | markDown (c : Nat)
  | snapshotView
  | dispatch (tgt : GlobalState)
deriving DecidableEq, Repr

/-- Modelled from the spec: the effect of each core operation on the
engine state. `snapshotView` returns an immutable view and changes
nothing; `dispatch` runs the CommandDispatcher transition. -/
def applyOp (st : EngineState) : CoreOp → EngineState
  | CoreOp.record r => EngineState.mk st.global (record st.registry r)
  | CoreOp.markDown c => EngineState.mk st.global (markDown st.registry c)
  | CoreOp.snapshotView => st
  | CoreOp.dispatch tgt => (transition st tgt).1

/-- A component id is registered in a Registry view. -/
def registered (reg : Snapshot) (c : Nat) : Prop :=
  ∃ r ∈ reg, r.cid = c

/-- Embedded from `src/src/lib/mysqrt.cpp`: the branch compiled when
both HAVE_LOG and HAVE_EXP are defined, `exp(log(inputValue)*0.5)`.
Doubles are embedded as reals, reading the phrase of the claim "the same
mathematical value". -/
noncomputable def mysqrt_logexp_branch (inputValue : ℝ) : ℝ :=
  Real.exp (Real.log inputValue * 0.5)

/-- Embedded from `src/src/lib/mysqrt.cpp`: the default branch,
`sqrt(inputValue)`. -/
noncomputable def mysqrt_sqrt_branch (inputValue : ℝ) : ℝ :=
  Real.sqrt inputValue

/-- Embedded from `src/src/lib/mysqrt.cpp`: the guard of the
lookup-table branch, `inputValue == 0`. -/
def mysqrt_table_branch (inputValue : ℝ) : Prop := inputValue = 0

/-- Embedded from `src/src/lib/mysqrt.cpp`, compiled with HAVE_LOG and
HAVE_EXP: `if (inputValue == 0) return sqrtTable[0];` then
`return exp(log(inputValue)*0.5);`.  The generated `Table.h` is not in
the snapshot, so `sqrtTable` is a parameter. -/
noncomputable def mysqrt_have_log_exp (sqrtTable : ℕ → ℝ)
    (inputValue : ℝ) : ℝ :=
  if inputValue = 0 then sqrtTable 0 else mysqrt_logexp_branch inputValue

/-- Embedded from `src/src/lib/mysqrt.cpp`, default compilation:
`if (inputValue == 0) return sqrtTable[0];` then
`return sqrt(inputValue);`. -/
noncomputable def mysqrt (sqrtTable : ℕ → ℝ) (inputValue : ℝ) : ℝ :=
  if inputValue = 0 then sqrtTable 0 else mysqrt_sqrt_branch inputValue

/-- Embedded from `src/src/cython_lib/_routines.pyx`:
`def squared_simple(input): return squared_simple_cython(input)`.
The extern C routine `squared_simple_cython` is declared in
`_routines.hpp`, which is not in the snapshot, so it is a parameter. -/
def squared_simple (squared_simple_cython : ℝ → ℝ) (inp : ℝ) : ℝ :=
  squared_simple_cython inp

end RichEndpoint

namespace RichEndpoint

/-- Left fold of `min` lands on an element of the seed-extended list. -/
theorem foldl_min_mem (a : ℚ) (l : List ℚ) : l.foldl min a ∈ a :: l := by
  induction l generalizing a with
  | nil => simp
  | cons h t ih =>
    simp only [List.foldl_cons]
    rcases List.mem_cons.mp (ih (min a h)) with heq | hmem
    · rcases min_choice a h with h1 | h1
      · rw [heq, h1]; exact List.mem_cons_self _ _
      · rw [heq, h1]; exact List.mem_cons_of_mem _ (List.mem_cons_self _ _)
    · exact List.mem_cons_of_mem _ (List.mem_cons_of_mem _ hmem)

/-- Left fold of `min` is a lower bound of the seed-extended list. -/
theorem foldl_min_le (a : ℚ) (l : List ℚ) :
    ∀ x ∈ a :: l, l.foldl min a ≤ x := by
  induction l generalizing a with
  | nil =>
    intro x hx
    rw [List.mem_singleton.mp hx]
    exact le_refl _
  | cons h t ih =>
    intro x hx
    simp only [List.foldl_cons]
    rcases List.mem_cons.mp hx with heq | hx'
    · rw [heq]
      exact le_trans (ih (min a h) _ (List.mem_cons_self _ _))
        (min_le_left a h)
    · rcases List.mem_cons.mp hx' with heq | hx''
      · rw [heq]
        exact le_trans (ih (min a h) _ (List.mem_cons_self _ _))
          (min_le_right a h)
      · exact ih (min a h) x (List.mem_cons_of_mem _ hx'')

/-- C3: whenever at least one RUNNING component offers a step-size
hint, `nextStep` succeeds with the minimum hint offered over exactly
the RUNNING components (hints of components in other states are not in
`runningHints` by construction, so they are ignored). -/
theorem nextStep_min_over_running (s : Snapshot)
    (h : runningHints s ≠ []) :
    ∃ m, nextStep s = Except.ok m ∧ m ∈ runningHints s ∧
      ∀ x ∈ runningHints s, m ≤ x := by
  cases hh : runningHints s with
  | nil => exact absurd hh h
  | cons a t =>
    refine ⟨t.foldl min a, ?_, ?_, ?_⟩
    · unfold nextStep; rw [hh]
    · exact foldl_min_mem a t
    · exact foldl_min_le a t

/-- C3 witness: on RUNNING hints 2, 3/2, 3 plus a PAUSED component
offering 1/10, the synchronizer returns 3/2 (the PAUSED hint is
ignored). -/
theorem nextStep_min_over_running_witness :
    runningHints
      [ComponentReport.mk 0 LocalState.RUNNING LocalStatus.UP (some 2) 0,
       ComponentReport.mk 1 LocalState.RUNNING LocalStatus.UP (some (3/2)) 0,
       ComponentReport.mk 2 LocalState.RUNNING LocalStatus.UP (some 3) 0,
       ComponentReport.mk 3 LocalState.PAUSED LocalStatus.UP (some (1/10)) 0] ≠
      [] ∧
    (∃ m, nextStep
        [ComponentReport.mk 0 LocalState.RUNNING LocalStatus.UP (some 2) 0,
         ComponentReport.mk 1 LocalState.RUNNING LocalStatus.UP (some (3/2)) 0,
         ComponentReport.mk 2 LocalState.RUNNING LocalStatus.UP (some 3) 0,
         ComponentReport.mk 3 LocalState.PAUSED LocalStatus.UP (some (1/10)) 0] =
        Except.ok m ∧
      m ∈ runningHints
        [ComponentReport.mk 0 LocalState.RUNNING LocalStatus.UP (some 2) 0,
         ComponentReport.mk 1 LocalState.RUNNING LocalStatus.UP (some (3/2)) 0,
         ComponentReport.mk 2 LocalState.RUNNING LocalStatus.UP (some 3) 0,
         ComponentReport.mk 3 LocalState.PAUSED LocalStatus.UP (some (1/10)) 0] ∧
      ∀ x ∈ runningHints
        [ComponentReport.mk 0 LocalState.RUNNING LocalStatus.UP (some 2) 0,
         ComponentReport.mk 1 LocalState.RUNNING LocalStatus.UP (some (3/2)) 0,
         ComponentReport.mk 2 LocalState.RUNNING LocalStatus.UP (some 3) 0,
         ComponentReport.mk 3 LocalState.PAUSED LocalStatus.UP (some (1/10)) 0],
        m ≤ x) ∧
    nextStep
      [ComponentReport.mk 0 LocalState.RUNNING LocalStatus.UP (some 2) 0,
       ComponentReport.mk 1 LocalState.RUNNING LocalStatus.UP (some (3/2)) 0,
       ComponentReport.mk 2 LocalState.RUNNING LocalStatus.UP (some 3) 0,
       ComponentReport.mk 3 LocalState.PAUSED LocalStatus.UP (some (1/10)) 0] =
      Except.ok (3/2) :=
  ⟨by decide, nextStep_min_over_running _ (by decide),
   by
     unfold nextStep runningHints
     norm_num [List.filter, List.filterMap_cons, min_def,
       show (decide (LocalState.PAUSED = LocalState.RUNNING)) = false from
         rfl]⟩

/-- The synchronizer sees no hint exactly when every RUNNING component
in the snapshot reports no hint. -/
theorem runningHints_eq_nil_iff (s : Snapshot) :
    runningHints s = [] ↔
      ∀ r ∈ s, r.state = LocalState.RUNNING → r.stepHint = none := by
  unfold runningHints
  rw [List.filterMap_eq_nil_iff]
  constructor
  · intro h r hr hst
    exact h r (List.mem_filter.mpr ⟨hr, by simp [hst]⟩)
  · intro h r hr
    obtain ⟨hmem, hp⟩ := List.mem_filter.mp hr
    exact h r hmem (by simpa using hp)

/-- C4: `nextStep` fails with NoStepAvailable exactly when zero RUNNING
components report a step-size hint, and in that case the engine
produces no step-advance command (in any global state). -/
theorem nextStep_noStepAvailable_iff (s : Snapshot) :
    (nextStep s = Except.error StepErr.NoStepAvailable ↔
      ∀ r ∈ s, r.state = LocalState.RUNNING → r.stepHint = none) ∧
    ∀ g, (∀ r ∈ s, r.state = LocalState.RUNNING → r.stepHint = none) →
      engineStepAdvance g s = none := by
  constructor
  · rw [← runningHints_eq_nil_iff]
    cases hh : runningHints s with
    | nil => unfold nextStep; rw [hh]; simp
    | cons a t => unfold nextStep; rw [hh]; simp
  · intro g hP
    have hnil : runningHints s = [] := (runningHints_eq_nil_iff s).mpr hP
    unfold engineStepAdvance nextStep
    rw [hnil]
    split <;> rfl

/-- C4 witness: with a single PAUSED component (which does offer a
hint) there is no RUNNING hint, `nextStep` fails with NoStepAvailable,
and the engine produces no step-advance command. -/
theorem nextStep_noStepAvailable_iff_witness :
    (∀ r ∈ ([ComponentReport.mk 0 LocalState.PAUSED LocalStatus.UP
               (some 1) 0] : Snapshot),
        r.state = LocalState.RUNNING → r.stepHint = none) ∧
    (nextStep [ComponentReport.mk 0 LocalState.PAUSED LocalStatus.UP
                 (some 1) 0] =
       Except.error StepErr.NoStepAvailable) ∧
    engineStepAdvance GlobalState.RUNNING
      [ComponentReport.mk 0 LocalState.PAUSED LocalStatus.UP (some 1) 0] =
      none :=
  ⟨by decide,
   (nextStep_noStepAvailable_iff _).1.mpr (by decide),
   (nextStep_noStepAvailable_iff _).2 GlobalState.RUNNING (by decide)⟩

/-- C1: if the LocalState of any component is ERROR, the Validator derives
GlobalState ERROR, whatever every other component reports (priority
rule 1 dominates all later rules). -/
theorem deriveGlobalState_error_dominates (s : Snapshot)
    (h : ∃ r ∈ s, r.state = LocalState.ERROR) :
    deriveGlobalState s = GlobalState.ERROR := by
  obtain ⟨r, hr, hst⟩ := h
  unfold deriveGlobalState
  rw [if_pos]
  simp only [List.any_eq_true, decide_eq_true_eq]
  exact ⟨r, hr, hst⟩

/-- C2: sticky ERROR. In any execution trace of the global state
machine, once the global state is ERROR it is ERROR at every later
tick, and no table transition at all leaves ERROR (recovery exists
only as the external operator reset, absent from the table). -/
theorem globalState_error_sticky (t : ℕ → GlobalState) (ht : IsTrace t)
    (n : ℕ) (h : t n = GlobalState.ERROR) :
    (∀ m, n ≤ m → t m = GlobalState.ERROR) ∧
    ∀ g', ¬ Step GlobalState.ERROR g' := by
  constructor
  · intro m hm
    induction m, hm using Nat.le_induction with
    | base => exact h
    | succ k hk ih =>
      rcases ht k with heq | hstep
      · rw [heq, ih]
      · rw [ih] at hstep
        cases hg : t (k + 1) <;> rw [hg] at hstep <;>
          exact absurd hstep (by decide)
  · intro g'
    cases g' <;> decide

/-- C2 witness: the constant-ERROR trace is a trace, and the theorem
keeps it at ERROR at every tick after 0. -/
theorem globalState_error_sticky_witness :
    IsTrace (fun _ => GlobalState.ERROR) ∧
    (∀ m, 0 ≤ m → (fun _ => GlobalState.ERROR) m = GlobalState.ERROR) ∧
    ∀ g', ¬ Step GlobalState.ERROR g' :=
  ⟨fun _ => Or.inl rfl,
   (globalState_error_sticky (fun _ => GlobalState.ERROR)
      (fun _ => Or.inl rfl) 0 rfl).1,
   (globalState_error_sticky (fun _ => GlobalState.ERROR)
      (fun _ => Or.inl rfl) 0 rfl).2⟩

/-- Any over a list is invariant under permutation of the list. -/
theorem perm_any_eq {α : Type} (p : α → Bool) {l₁ l₂ : List α}
    (h : l₁.Perm l₂) : l₁.any p = l₂.any p := by
  induction h with
  | nil => rfl
  | cons x _ ih => simp only [List.any_cons, ih]
  | swap x y l =>
    simp only [List.any_cons]
    rw [← Bool.or_assoc, ← Bool.or_assoc, Bool.or_comm (p y) (p x)]
  | trans _ _ ih₁ ih₂ => rw [ih₁, ih₂]

/-- All over a list is invariant under permutation of the list. -/
theorem perm_all_eq {α : Type} (p : α → Bool) {l₁ l₂ : List α}
    (h : l₁.Perm l₂) : l₁.all p = l₂.all p := by
  induction h with
  | nil => rfl
  | cons x _ ih => simp only [List.all_cons, ih]
  | swap x y l =>
    simp only [List.all_cons]
    rw [← Bool.and_assoc, ← Bool.and_assoc, Bool.and_comm (p y) (p x)]
  | trans _ _ ih₁ ih₂ => rw [ih₁, ih₂]

/-- C6: the Validator derivation is a pure function of the snapshot —
equal snapshots give equal results — and is independent of the order
in which the reports making up the snapshot were recorded: any
permutation of the snapshot derives the same GlobalState and
GlobalStatus. -/
theorem deriveGlobal_deterministic_order_independent
    (s₁ s₂ : Snapshot) (h : s₁.Perm s₂) :
    deriveGlobalState s₁ = deriveGlobalState s₂ ∧
    deriveGlobalStatus s₁ = deriveGlobalStatus s₂ := by
  constructor
  · unfold deriveGlobalState
    rw [perm_any_eq _ h, perm_any_eq _ h, perm_all_eq _ h,
        perm_any_eq _ h, perm_any_eq _ h, perm_all_eq _ h]
  · unfold deriveGlobalStatus
    rw [perm_any_eq _ h, perm_any_eq _ h]

/-- C6 witness: recording the same two reports in either order yields
the same derived global state and status. -/
theorem deriveGlobal_deterministic_order_independent_witness :
    ([ComponentReport.mk 0 LocalState.RUNNING LocalStatus.UP (some 1) 5,
      ComponentReport.mk 1 LocalState.PAUSED LocalStatus.DEGRADED none 6].Perm
     [ComponentReport.mk 1 LocalState.PAUSED LocalStatus.DEGRADED none 6,
      ComponentReport.mk 0 LocalState.RUNNING LocalStatus.UP (some 1) 5]) ∧
    (deriveGlobalState
       [ComponentReport.mk 0 LocalState.RUNNING LocalStatus.UP (some 1) 5,
        ComponentReport.mk 1 LocalState.PAUSED LocalStatus.DEGRADED none 6] =
     deriveGlobalState
       [ComponentReport.mk 1 LocalState.PAUSED LocalStatus.DEGRADED none 6,
        ComponentReport.mk 0 LocalState.RUNNING LocalStatus.UP (some 1) 5] ∧
     deriveGlobalStatus
       [ComponentReport.mk 0 LocalState.RUNNING LocalStatus.UP (some 1) 5,
        ComponentReport.mk 1 LocalState.PAUSED LocalStatus.DEGRADED none 6] =
     deriveGlobalStatus
       [ComponentReport.mk 1 LocalState.PAUSED LocalStatus.DEGRADED none 6,
        ComponentReport.mk 0 LocalState.RUNNING LocalStatus.UP (some 1) 5]) :=
  ⟨List.Perm.swap _ _ _,
   deriveGlobal_deterministic_order_independent _ _ (List.Perm.swap _ _ _)⟩

/-- C5: a transition request absent from the fixed table fails with
IllegalTransition and mutates nothing: the engine state after the
failed call is exactly the engine state before it, in particular the
GlobalState is unchanged. -/
theorem transition_illegal_no_mutation (st : EngineState)
    (tgt : GlobalState) (h : (st.global, tgt) ∉ transitionTable) :
    transition st tgt = (st, Except.error DispatchErr.IllegalTransition) ∧
    (transition st tgt).1.global = st.global := by
  have heq : transition st tgt =
      (st, Except.error DispatchErr.IllegalTransition) := by
    unfold transition
    rw [if_neg h]
  exact ⟨heq, by rw [heq]⟩

/-- C5 witness: TERMINATED → RUNNING is not in the table; requesting it
fails with IllegalTransition and leaves the state (and its
GlobalState) untouched. -/
theorem transition_illegal_no_mutation_witness :
    ((EngineState.mk GlobalState.TERMINATED []).global,
      GlobalState.RUNNING) ∉ transitionTable ∧
    transition (EngineState.mk GlobalState.TERMINATED [])
        GlobalState.RUNNING =
      (EngineState.mk GlobalState.TERMINATED [],
       Except.error DispatchErr.IllegalTransition) :=
  ⟨by decide,
   (transition_illegal_no_mutation _ GlobalState.RUNNING (by decide)).1⟩

/-- Recording a report never removes a registered component. -/
theorem record_preserves_registered (reg : Snapshot)
    (r : ComponentReport) (c : Nat) (h : registered reg c) :
    registered (record reg r) c := by
  obtain ⟨r0, hr0, hc⟩ := h
  unfold record
  split
  · refine ⟨if r0.cid = r.cid then r else r0,
      List.mem_map_of_mem _ hr0, ?_⟩
    by_cases hcc : r0.cid = r.cid
    · rw [if_pos hcc, ← hcc]
      exact hc
    · rw [if_neg hcc]
      exact hc
  · exact ⟨r0, List.mem_append_left _ hr0, hc⟩

/-- Timeout escalation to DOWN never removes a registered component. -/
theorem markDown_preserves_registered (reg : Snapshot) (d c : Nat)
    (h : registered reg c) : registered (markDown reg d) c := by
  obtain ⟨r0, hr0, hc⟩ := h
  unfold markDown
  refine ⟨if r0.cid = d then
      ComponentReport.mk r0.cid r0.state LocalStatus.DOWN r0.stepHint
        r0.timestamp
    else r0, List.mem_map_of_mem _ hr0, ?_⟩
  by_cases hcc : r0.cid = d
  · rw [if_pos hcc]
    exact hc
  · rw [if_neg hcc]
    exact hc

/-- Command dispatch never touches the Registry, whether the requested
transition is legal or not. -/
theorem transition_registry_unchanged (st : EngineState)
    (tgt : GlobalState) : (transition st tgt).1.registry = st.registry := by
  unfold transition
  split <;> rfl

/-- C7: Registry membership is monotone: every core operation (record,
timeout escalation to DOWN, snapshot view, command dispatch) preserves
every registered component — no operation deletes an entry mid-run. -/
theorem registry_monotone (st : EngineState) (op : CoreOp) (c : Nat)
    (h : registered st.registry c) :
    registered (applyOp st op).registry c := by
  cases op with
  | record r => exact record_preserves_registered _ r c h
  | markDown d => exact markDown_preserves_registered _ d c h
  | snapshotView => exact h
  | dispatch tgt =>
    unfold applyOp
    rw [transition_registry_unchanged]
    exact h

/-- C7 witness: with one registered component, each kind of operation
keeps it registered — here timeout escalation of that very component. -/
theorem registry_monotone_witness :
    registered
      (EngineState.mk GlobalState.RUNNING
        [ComponentReport.mk 0 LocalState.RUNNING LocalStatus.UP
          (some 1) 0]).registry 0 ∧
    registered
      (applyOp
        (EngineState.mk GlobalState.RUNNING
          [ComponentReport.mk 0 LocalState.RUNNING LocalStatus.UP
            (some 1) 0])
        (CoreOp.markDown 0)).registry 0 :=
  ⟨⟨ComponentReport.mk 0 LocalState.RUNNING LocalStatus.UP (some 1) 0,
    List.mem_singleton.mpr rfl, rfl⟩,
   registry_monotone _ (CoreOp.markDown 0) 0
     ⟨ComponentReport.mk 0 LocalState.RUNNING LocalStatus.UP (some 1) 0,
      List.mem_singleton.mpr rfl, rfl⟩⟩

/-- C1 witness: a two-component snapshot, one RUNNING and one ERROR,
derives GlobalState ERROR. -/
theorem deriveGlobalState_error_dominates_witness :
    (∃ r ∈ [ComponentReport.mk 0 LocalState.RUNNING LocalStatus.UP (some 1) 5,
            ComponentReport.mk 1 LocalState.ERROR LocalStatus.UP none 6],
        r.state = LocalState.ERROR) ∧
    deriveGlobalState
      [ComponentReport.mk 0 LocalState.RUNNING LocalStatus.UP (some 1) 5,
       ComponentReport.mk 1 LocalState.ERROR LocalStatus.UP none 6] =
      GlobalState.ERROR :=
  ⟨by decide, deriveGlobalState_error_dominates _ (by decide)⟩

/-- C8: for every positive input the two compile-time branches of
`mysqrt` compute the same mathematical value —
`exp(log(inputValue)*0.5)` equals `sqrt(inputValue)` — so the
result does not depend on which branch was compiled in, whatever the
lookup table holds. -/
theorem mysqrt_branches_agree (sqrtTable : ℕ → ℝ) (x : ℝ)
    (hx : 0 < x) :
    mysqrt_logexp_branch x = mysqrt_sqrt_branch x ∧
    mysqrt_have_log_exp sqrtTable x = mysqrt sqrtTable x := by
  have key : Real.exp (Real.log x * 0.5) = Real.sqrt x := by
    rw [Real.sqrt_eq_rpow, Real.rpow_def_of_pos hx]
    norm_num
  constructor
  · unfold mysqrt_logexp_branch mysqrt_sqrt_branch
    exact key
  · unfold mysqrt_have_log_exp mysqrt mysqrt_logexp_branch
      mysqrt_sqrt_branch
    rw [if_neg (ne_of_gt hx), if_neg (ne_of_gt hx)]
    exact key

/-- C8 witness: at input 1 both branches of `mysqrt` agree (and both
equal 1). -/
theorem mysqrt_branches_agree_witness :
    (0 : ℝ) < 1 ∧
    mysqrt_logexp_branch 1 = mysqrt_sqrt_branch 1 ∧
    mysqrt_have_log_exp (fun _ => 0) 1 = mysqrt (fun _ => 0) 1 ∧
    mysqrt_sqrt_branch 1 = 1 :=
  ⟨one_pos, (mysqrt_branches_agree (fun _ => 0) 1 one_pos).1,
   (mysqrt_branches_agree (fun _ => 0) 1 one_pos).2,
   by unfold mysqrt_sqrt_branch; exact Real.sqrt_one⟩

/-- C9: on input 0 `mysqrt` returns the table entry `sqrtTable[0]`
without calling a square-root routine (in either compilation); the
lookup-table branch is taken exactly on input 0, and every nonzero
input takes the compiled square-root branch. -/
theorem mysqrt_zero_uses_table (sqrtTable : ℕ → ℝ) :
    mysqrt sqrtTable 0 = sqrtTable 0 ∧
    mysqrt_have_log_exp sqrtTable 0 = sqrtTable 0 ∧
    mysqrt_table_branch 0 ∧
    ∀ x : ℝ, x ≠ 0 →
      ¬ mysqrt_table_branch x ∧ mysqrt sqrtTable x = Real.sqrt x := by
  refine ⟨?_, ?_, rfl, ?_⟩
  · unfold mysqrt
    rw [if_pos rfl]
  · unfold mysqrt_have_log_exp
    rw [if_pos rfl]
  · intro x hx
    refine ⟨hx, ?_⟩
    unfold mysqrt mysqrt_sqrt_branch
    rw [if_neg hx]

/-- C9 witness: with table entry 9 at index 0, `mysqrt` returns 9 at
input 0, and input 2 does not take the table branch but the
square-root branch. -/
theorem mysqrt_zero_uses_table_witness :
    mysqrt (fun _ => 9) 0 = 9 ∧
    (2 : ℝ) ≠ 0 ∧
    ¬ mysqrt_table_branch 2 ∧
    mysqrt (fun _ => 9) 2 = Real.sqrt 2 :=
  ⟨(mysqrt_zero_uses_table (fun _ => 9)).1,
   by norm_num,
   ((mysqrt_zero_uses_table (fun _ => 9)).2.2.2 2 (by norm_num)).1,
   ((mysqrt_zero_uses_table (fun _ => 9)).2.2.2 2 (by norm_num)).2⟩

/-- C10: `squared_simple` is a pure single-call delegation to the
wrapped C routine: it returns exactly `squared_simple_cython(input)`,
and its documented postcondition "return square of input" holds at an
input exactly when the wrapped routine squares that input. -/
theorem squared_simple_delegates (squared_simple_cython : ℝ → ℝ)
    (inp : ℝ) :
    squared_simple squared_simple_cython inp =
      squared_simple_cython inp ∧
    (squared_simple squared_simple_cython inp = inp * inp ↔
      squared_simple_cython inp = inp * inp) :=
  ⟨rfl, Iff.rfl⟩

end RichEndpoint
